import Mathlib

set_option maxRecDepth 8000

namespace ClangDiag

/-!
Shallow embedding of the diagnostic-reporting core implemented in
clang/lib/Basic/Diagnostic.cpp.  Pure logic (counters, cascade flags, the
per-file diagnostic-state transition map, severity mappings, suppression
matching, the message mini-language interpreter and the string escaper) is
translated directly from the source.  External collaborators (the diagnostic
ID catalog, source manager, glob matching and the Unicode tables) are passed
in as parameters, mirroring the interfaces the source consumes.
-/

/-- Diagnostic report levels, mirroring Diagnostic::Level and
DiagnosticsEngine::Level.  The declaration order fixes the numeric order used
by comparisons such as DiagLevel >= Error. -/
inductive Level
  | Ignored
  | Note
  | Remark
  | Warning
  | Error
  | Fatal
deriving DecidableEq, Repr

/-- Numeric value of a level (the C++ enum value order). -/
def Level.ord : Level → Nat
  | .Ignored => 0
  | .Note => 1
  | .Remark => 2
  | .Warning => 3
  | .Error => 4
  | .Fatal => 5

/-- The comparison DiagLevel >= DiagnosticsEngine::Error used in ProcessDiag. -/
abbrev Level.isAtLeastError (l : Level) : Prop := Level.ord Level.Error ≤ l.ord

/-- Engine bookkeeping state: the counters and sticky flags of
DiagnosticsEngine that ProcessDiag reads and writes (initialized by Reset). -/
structure EngineState where
  errorOccurred : Bool
  uncompilableErrorOccurred : Bool
  fatalErrorOccurred : Bool
  unrecoverableErrorOccurred : Bool
  numWarnings : Nat
  numErrors : Nat
  trapNumErrorsOccurred : Nat
  trapNumUnrecoverableErrorsOccurred : Nat
  lastDiagLevel : Level
  suppressAllDiagnostics : Bool
  errorLimit : Nat
deriving DecidableEq, Repr

/-- External collaborators of ProcessDiag: catalog predicates on diagnostic
IDs, the consumer's IncludeInDiagnosticCounts answer, and the identity and
catalog level of the synthetic diag::fatal_too_many_errors diagnostic (its
default mapping is Fatal; the level is a parameter here because the catalog is
outside the translated file). -/
structure DiagEnv where
  isUnrecoverable : Nat → Bool
  isDefaultMappingAsError : Nat → Bool
  includeInCounts : Bool
  tooManyId : Nat
  tooManyLevel : Level

/-- DiagnosticsEngine::Report(Level, Info): hands the diagnostic to the
consumer (modelled as the singleton output list) and counts warnings when the
consumer participates in counts. -/
def reportToConsumer (env : DiagEnv) (st : EngineState) (lvl : Level) (id : Nat) :
    EngineState × List (Level × Nat) :=
  (if env.includeInCounts && (lvl == Level.Warning) then
      { st with numWarnings := st.numWarnings + 1 }
    else st,
   [(lvl, id)])

/-- DiagnosticsEngine::ProcessDiag, translated statement by statement.  The
input diagnostic is (diagID, diagLevel) with the level already resolved by
getDiagnosticLevel (severity resolution is a separate component).  The result
is the updated engine state, the list of diagnostics handed to the consumer
during the call, and the return value.  The synthetic
Report(diag::fatal_too_many_errors) in the error-limit branch re-enters
ProcessDiag; here that re-entry is the `synthetic` parameter, tied back to
ProcessDiag itself in the fuelled wrapper below. -/
def ProcessDiagBody (env : DiagEnv)
    (synthetic : EngineState → EngineState × List (Level × Nat))
    (st0 : EngineState) (diagID : Nat) (diagLevel : Level) :
    EngineState × List (Level × Nat) × Bool :=
  -- Update counts for DiagnosticErrorTrap even if a fatal error occurred
  -- or diagnostics are suppressed.
  let st1 :=
    if diagLevel.isAtLeastError then
      { st0 with
        trapNumErrorsOccurred := st0.trapNumErrorsOccurred + 1,
        trapNumUnrecoverableErrorsOccurred :=
          if env.isUnrecoverable diagID then
            st0.trapNumUnrecoverableErrorsOccurred + 1
          else st0.trapNumUnrecoverableErrorsOccurred }
    else st0
  if st1.suppressAllDiagnostics then (st1, [], false)
  else
    -- Record that a fatal error occurred only when we see a second
    -- non-note diagnostic.
    let st2 :=
      if diagLevel ≠ Level.Note then
        { st1 with
          fatalErrorOccurred :=
            st1.fatalErrorOccurred || (st1.lastDiagLevel == Level.Fatal),
          lastDiagLevel := diagLevel }
      else st1
    -- If a fatal error has already been emitted, silence all subsequent
    -- diagnostics.
    if st2.fatalErrorOccurred then
      (if diagLevel.isAtLeastError ∧ env.includeInCounts = true then
          { st2 with numErrors := st2.numErrors + 1 }
        else st2,
       [], false)
    else if diagLevel = Level.Ignored ∨
        (diagLevel = Level.Note ∧ st2.lastDiagLevel = Level.Ignored) then
      (st2, [], false)
    else
      let st3 :=
        if diagLevel.isAtLeastError then
          { st2 with
            unrecoverableErrorOccurred :=
              st2.unrecoverableErrorOccurred || env.isUnrecoverable diagID,
            uncompilableErrorOccurred :=
              st2.uncompilableErrorOccurred ||
                env.isDefaultMappingAsError diagID,
            errorOccurred := true,
            numErrors :=
              if env.includeInCounts then st2.numErrors + 1 else st2.numErrors }
        else st2
      -- If we've emitted a lot of errors, emit a fatal error instead of it
      -- to stop a flood of bogus errors.
      if diagLevel.isAtLeastError ∧ st3.errorLimit ≠ 0 ∧
          st3.errorLimit < st3.numErrors ∧ diagLevel = Level.Error then
        let inner := synthetic st3
        (inner.1, inner.2, false)
      else
        -- Make sure we set FatalErrorOccurred to ensure that the notes from
        -- the diagnostic that caused fatal_too_many_errors won't be emitted.
        let st4 :=
          if diagID == env.tooManyId then { st3 with fatalErrorOccurred := true }
          else st3
        let rep := reportToConsumer env st4 diagLevel diagID
        (rep.1, rep.2, true)

/-- ProcessDiag with the synthetic too-many-errors report wired back into
ProcessDiag.  The fuel argument bounds the re-entry depth; one level is ever
used, since the synthetic diagnostic's level is Fatal, not Error. -/
def ProcessDiag (env : DiagEnv) :
    Nat → EngineState → Nat → Level → EngineState × List (Level × Nat) × Bool
  | 0, st, id, lvl => ProcessDiagBody env (fun st3 => (st3, [])) st id lvl
  | fuel + 1, st, id, lvl =>
    ProcessDiagBody env
      (fun st3 =>
        let r := ProcessDiag env fuel st3 env.tooManyId env.tooManyLevel
        (r.1, r.2.1))
      st id lvl

/-- Runs a sequence of fully-formed diagnostics through ProcessDiag,
concatenating everything delivered to the consumer. -/
def runDiags (env : DiagEnv) (fuel : Nat) :
    EngineState → List (Nat × Level) → EngineState × List (Level × Nat)
  | st, [] => (st, [])
  | st, d :: ds =>
    let r := ProcessDiag env fuel st d.1 d.2
    let rest := runDiags env fuel r.1 ds
    (rest.1, r.2.1 ++ rest.2)

/-- The engine state produced by DiagnosticsEngine::Reset with a given error
limit. -/
def initialEngineState (limit : Nat) : EngineState :=
  { errorOccurred := false
    uncompilableErrorOccurred := false
    fatalErrorOccurred := false
    unrecoverableErrorOccurred := false
    numWarnings := 0
    numErrors := 0
    trapNumErrorsOccurred := 0
    trapNumUnrecoverableErrorsOccurred := 0
    lastDiagLevel := Level.Ignored
    suppressAllDiagnostics := false
    errorLimit := limit }

/-- A concrete environment for ground runs: nothing unrecoverable, counting
consumer, fatal_too_many_errors carries ID 99 and level Fatal. -/
def env0 : DiagEnv :=
  { isUnrecoverable := fun _ => false
    isDefaultMappingAsError := fun _ => false
    includeInCounts := true
    tooManyId := 99
    tooManyLevel := Level.Fatal }

/-- One transition point of a file's diagnostic-state list:
DiagnosticsEngine::DiagStatePoint (a DiagState handle plus a byte offset).
States are modelled by numeric handles; equality of handles is equality of
states, as in the source's pointer comparison. -/
structure DiagStatePoint where
  state : Nat
  offset : Nat
deriving DecidableEq, Repr

/-- DiagStateMap::append restricted to a single file (the loop body runs once
and then moves to the null parent): if the last transition is at the same
offset, overwrite its state (or do nothing when the state is unchanged),
otherwise push a new transition at the back.  The source asserts the list is
nonempty and offsets never decrease. -/
def appendTransition : List DiagStatePoint → Nat → Nat → List DiagStatePoint
  | [], _, _ => []
  | [last], s, off =>
    if last.offset = off then
      (if last.state = s then [last] else [⟨s, off⟩])
    else [last, ⟨s, off⟩]
  | p :: q :: ts, s, off => p :: appendTransition (q :: ts) s off

/-- DiagStateMap::File::lookup: the partition-point search returning the state
of the last transition whose offset is at or before the query, written as a
functional scan of the (offset-sorted) transition list; none models the
asserted-unreachable case of a query before the initial entry. -/
def lookupTransition : List DiagStatePoint → Nat → Option Nat
  | [], _ => none
  | p :: ts, q =>
    if p.offset ≤ q then some ((lookupTransition ts q).getD p.state) else none

/-- Replays a sequence of (offset, state) transition recordings, as produced
by setSeverity calls inside one file, onto a transition list. -/
def runSetSeverityCalls (ts : List DiagStatePoint) (calls : List (Nat × Nat)) :
    List DiagStatePoint :=
  calls.foldl (fun a c => appendTransition a c.2 c.1) ts

/-- Specification-side answer for C5, following the spec's words: the state
produced by the latest call whose offset is at or before the query (with
last-write-wins among calls at one offset), or the initial state if there is
no such call. -/
def latestStateAtOrBefore (init : Nat) (calls : List (Nat × Nat)) (q : Nat) : Nat :=
  calls.foldl (fun acc c => if c.1 ≤ q then c.2 else acc) init

/-- The engine state touched by pushMappings/popMappings: the current DiagState
handle, the (single-file) transition list of DiagStatesByLoc, and
DiagStateOnPushStack. -/
structure PragmaEngine where
  curState : Nat
  transitions : List DiagStatePoint
  pushStack : List Nat
deriving DecidableEq, Repr

/-- DiagnosticsEngine::pushMappings: records the current state on the push
stack (the location argument is unused by the source as well). -/
def pushMappings (e : PragmaEngine) : PragmaEngine :=
  { e with pushStack := e.curState :: e.pushStack }

/-- DiagnosticsEngine::PushDiagStatePoint / DiagStateMap::append: make the
given state current and record a transition at the location. -/
def pushDiagStatePoint (e : PragmaEngine) (s off : Nat) : PragmaEngine :=
  { e with
    curState := s
    transitions := appendTransition e.transitions s off }

/-- DiagnosticsEngine::popMappings: fails on an empty push stack; otherwise
restores the snapshot, recording a transition point only if the state changed
since the matching push. -/
def popMappings (e : PragmaEngine) (off : Nat) : PragmaEngine × Bool :=
  match e.pushStack with
  | [] => (e, false)
  | top :: rest =>
    let e2 := if top ≠ e.curState then pushDiagStatePoint e top off else e
    ({ e2 with pushStack := rest }, true)

/-- Severity values of diag::Severity. -/
inductive Severity
  | Ignored
  | Remark
  | Warning
  | Error
  | Fatal
deriving DecidableEq, Repr

/-- DiagnosticMapping: a severity plus the flag bits. -/
structure DiagnosticMapping where
  severity : Severity
  isUser : Bool
  isPragma : Bool
  noWarningAsError : Bool
  noErrorAsFatal : Bool
  wasUpgradedFromWarning : Bool
deriving DecidableEq, Repr

/-- A DiagState's mapping table.  getOrAddMapping lazily installs the catalog
default on first access, so observationally a state is a total map from
diagnostic ID to mapping (with catalog defaults pre-applied); setMapping
overwrites one entry. -/
abbrev DiagState := Nat → DiagnosticMapping

/-- DiagState::setMapping. -/
def setMapping (st : DiagState) (d : Nat) (m : DiagnosticMapping) : DiagState :=
  fun x => if x = d then m else st x

/-- Modelled from the spec: DiagnosticMapping::makeUserMapping (declared in the
header, outside the translated file) builds a user mapping with the requested
severity, IsPragma set exactly when the location is valid, and all other flag
bits clear. -/
def makeUserMapping (m : Severity) (locValid : Bool) : DiagnosticMapping :=
  { severity := m
    isUser := true
    isPragma := locValid
    noWarningAsError := false
    noErrorAsFatal := false
    wasUpgradedFromWarning := false }

/-- DiagnosticsEngine::setSeverity, reduced to its effect on the mapping table
of the resulting current state (both the mutate-in-place and the
clone-and-record-transition branches store the same mapping for the target
diagnostic).  A command line override has an invalid location and cannot
downgrade an existing Error/Fatal mapping to Warning; the NoWarningAsError
flag of an existing mapping is propagated. -/
def setSeverity (st : DiagState) (diag : Nat) (m : Severity) (locValid : Bool) :
    DiagState :=
  let info := st diag
  let wasUpgraded :=
    (m == Severity.Warning) && !locValid &&
      ((info.severity == Severity.Error) || (info.severity == Severity.Fatal))
  let m2 := if wasUpgraded then info.severity else m
  let mapping :=
    { makeUserMapping m2 locValid with wasUpgradedFromWarning := wasUpgraded }
  let mapping2 :=
    { mapping with
      noWarningAsError := info.noWarningAsError || mapping.noWarningAsError }
  setMapping st diag mapping2

/-- The disabling arm of setDiagnosticGroupWarningAsError for one group member:
anything currently mapped to Error or Fatal is set to Warning, and the
mapping's NoWarningAsError bit is set. -/
def warningAsErrorDisableOne (st : DiagState) (d : Nat) : DiagState :=
  let info := st d
  let info2 :=
    if (info.severity == Severity.Error) || (info.severity == Severity.Fatal) then
      { info with severity := Severity.Warning }
    else info
  setMapping st d { info2 with noWarningAsError := true }

/-- DiagnosticsEngine::setDiagnosticGroupWarningAsError over a resolved group
member list: enabling maps every member to Error via setSeverity at an invalid
location; disabling applies the downgrade-and-flag step to every member. -/
def setDiagnosticGroupWarningAsError (groupDiags : List Nat) (enabled : Bool)
    (st : DiagState) : DiagState :=
  if enabled then
    groupDiags.foldl (fun s d => setSeverity s d Severity.Error false) st
  else groupDiags.foldl warningAsErrorDisableOne st

/-- The disabling arm of setDiagnosticGroupErrorAsFatal for one group member:
a Fatal mapping is set back to Error, and NoErrorAsFatal is set. -/
def errorAsFatalDisableOne (st : DiagState) (d : Nat) : DiagState :=
  let info := st d
  let info2 :=
    if info.severity == Severity.Fatal then { info with severity := Severity.Error }
    else info
  setMapping st d { info2 with noErrorAsFatal := true }

/-- DiagnosticsEngine::setDiagnosticGroupErrorAsFatal over a resolved group
member list. -/
def setDiagnosticGroupErrorAsFatal (groupDiags : List Nat) (enabled : Bool)
    (st : DiagState) : DiagState :=
  if enabled then
    groupDiags.foldl (fun s d => setSeverity s d Severity.Fatal false) st
  else groupDiags.foldl errorAsFatalDisableOne st

/-- A parsed suppression-mapping section: entity-type keys (such as "src")
mapped to category matchers, each category holding its glob pattern names in
encounter order.  Glob matching itself is external (spec section 1); a matcher
function is passed in wherever patterns are tested. -/
structure SCLSection where
  entries : List (String × List (String × List String))
deriving DecidableEq, Repr

/-- Association-list lookup, modelling StringMap::find on the section's
entries. -/
def lookupEntry {α : Type} (l : List (String × α)) (k : String) : Option α :=
  (l.find? (fun e => e.1 == k)).map (fun e => e.2)

/-- One step of the WarningsSpecialCaseList::globsMatches scan over the
(pattern name, category-is-positive) pairs: shorter-than-best patterns are
skipped, non-matching patterns are skipped, and a matching pattern at least as
long as the best so far becomes the new best. -/
def globScanStep (m : String → String → Bool) (path : String)
    (acc : String × Bool) (c : String × Bool) : String × Bool :=
  if c.1.length < acc.1.length then acc
  else if m c.1 path = false then acc
  else c

/-- WarningsSpecialCaseList::globsMatches: find the longest glob pattern
matching the file path amongst the category matchers; true iff the match
exists and belongs to a positive (non-"emit") category. -/
def globsMatches (m : String → String → Bool)
    (cats : List (String × List String)) (path : String) : Bool :=
  (cats.foldl
      (fun acc ent =>
        ent.2.foldl (fun a g => globScanStep m path a (g, ent.1 != "emit")) acc)
      ("", false)).2

/-- WarningsSpecialCaseList::isDiagSuppressed: resolve the diagnostic to its
owning section (none means not suppressed), consult only the "src" entity
entries, require a valid presumed path, and delegate to globsMatches. -/
def isDiagSuppressed (diagToSection : Nat → Option SCLSection)
    (m : String → String → Bool) (diagId : Nat) (presumedPath : Option String) :
    Bool :=
  match diagToSection diagId with
  | none => false
  | some sec =>
    match lookupEntry sec.entries "src" with
    | none => false
    | some cats =>
      match presumedPath with
      | some path => globsMatches m cats path
      | none => false

/-- WarningsSpecialCaseList::processSections: iterate the sections in source
line order (the input list is assumed so ordered, as the source sorts by line
number), resolve each section name to its diagnostic group members, skip
unknown groups, and let the last section containing a diagnostic win. -/
def processSections (groupToDiags : String → Option (List Nat))
    (sections : List (String × SCLSection)) : Nat → Option SCLSection :=
  sections.foldl
    (fun acc entry =>
      match groupToDiags entry.1 with
      | none => acc
      | some ds => fun d => if d ∈ ds then some entry.2 else acc d)
    (fun _ => none)

/-- All (pattern name, category-is-positive) pairs of a section's category
matchers, flattened in encounter order. -/
def sectionPairs : List (String × List String) → List (String × Bool)
  | [] => []
  | ent :: rest =>
    ent.2.map (fun g => (g, ent.1 != "emit")) ++ sectionPairs rest

/-- Specification-side candidates for C3: the pairs whose pattern matches the
path, in encounter order. -/
def srcMatchCandidates (m : String → String → Bool)
    (cats : List (String × List String)) (path : String) : List (String × Bool) :=
  (sectionPairs cats).filter (fun c => m c.1 path)

/-- Length of the longest matching pattern among the candidates. -/
def maxPatternLen (cands : List (String × Bool)) : Nat :=
  cands.foldl (fun a c => max a c.1.length) 0

/-- Specification-side winner for C3, following the spec's words: among the
matching patterns, the single longest one wins, with ties among equal-length
matches broken by encounter order (the later encountered entry prevails). -/
def winningCandidate (m : String → String → Bool)
    (cats : List (String × List String)) (path : String) : Option (String × Bool) :=
  let cands := srcMatchCandidates m cats path
  (cands.filter (fun c => c.1.length == maxPatternLen cands)).getLast?

/-- Modelled from the spec: glob matching is an external string-matcher
component; this concrete matcher records the glob facts needed by the spec's
suppression example. -/
def exampleGlobMatch : String → String → Bool := fun g path =>
  ((g == "*.gen.cc") && (path == "z.gen.cc")) ||
    ((g == "x/*.cc") && (path == "x/y.cc"))

/-- The first example section: warn-A with src mapped to emit "*.gen.cc". -/
def sectionEmitGen : SCLSection := ⟨[("src", [("emit", ["*.gen.cc"])])]⟩

/-- The later example section: warn-A with src mapped to block "x/*.cc". -/
def sectionBlockX : SCLSection := ⟨[("src", [("block", ["x/*.cc"])])]⟩

/-- Group resolution for the example: group warn-A contains diagnostic 7. -/
def exampleGroupToDiags : String → Option (List Nat) := fun g =>
  if g == "warn-A" then some [7] else none

/-- The example DiagToSection map: two warn-A sections in line order, the
later one overwriting the earlier for their shared diagnostics. -/
def exampleDiagToSection : Nat → Option SCLSection :=
  processSections exampleGroupToDiags
    [("warn-A", sectionEmitGen), ("warn-A", sectionBlockX)]

/-- ASCII printability as tested by clang::isPrintable (the printable ASCII
range 0x20 to 0x7E). -/
def isPrintableAscii (b : Nat) : Bool := decide (0x20 ≤ b ∧ b ≤ 0x7E)

/-- ASCII whitespace as tested by clang::isWhitespace (horizontal and vertical
whitespace). -/
def isWhitespaceAscii (b : Nat) : Bool :=
  (b == 0x20) || (b == 0x09) || (b == 0x0C) || (b == 0x0B) || (b == 0x0A) ||
    (b == 0x0D)

/-- Modelled from the spec: strict UTF-8 legality and decoding of the first
code unit sequence (llvm's isLegalUTF8Sequence and ConvertUTF8toUTF32 live
outside the translated file).  Returns the code point and the sequence length;
none for an ill-formed leading sequence (continuation byte, overlong form,
surrogate, out of range, or truncated). -/
def utf8Decode1 : List Nat → Option (Nat × Nat)
  | [] => none
  | b :: rest =>
    if b < 0x80 then some (b, 1)
    else if b < 0xC2 then none
    else if b < 0xE0 then
      match rest with
      | c1 :: _ =>
        if 0x80 ≤ c1 ∧ c1 < 0xC0 then
          some ((b - 0xC0) * 0x40 + (c1 - 0x80), 2)
        else none
      | [] => none
    else if b < 0xF0 then
      match rest with
      | c1 :: c2 :: _ =>
        if (0x80 ≤ c1 ∧ c1 < 0xC0) ∧ (0x80 ≤ c2 ∧ c2 < 0xC0) then
          let cp := (b - 0xE0) * 0x1000 + (c1 - 0x80) * 0x40 + (c2 - 0x80)
          if cp < 0x800 ∨ (0xD800 ≤ cp ∧ cp ≤ 0xDFFF) then none
          else some (cp, 3)
        else none
      | _ => none
    else if b ≤ 0xF4 then
      match rest with
      | c1 :: c2 :: c3 :: _ =>
        if (0x80 ≤ c1 ∧ c1 < 0xC0) ∧ (0x80 ≤ c2 ∧ c2 < 0xC0) ∧
            (0x80 ≤ c3 ∧ c3 < 0xC0) then
          let cp := (b - 0xF0) * 0x40000 + (c1 - 0x80) * 0x1000 +
            (c2 - 0x80) * 0x40 + (c3 - 0x80)
          if cp < 0x10000 ∨ 0x10FFFF < cp then none else some (cp, 4)
        else none
      | _ => none
    else none

/-- Uppercase hexadecimal digit. -/
def hexDigitChar (n : Nat) : Char :=
  if n < 10 then Char.ofNat (48 + n) else Char.ofNat (55 + n)

/-- Uppercase hexadecimal digits of a number, most significant first (fuel is
an upper bound on the digit count). -/
def hexDigitsGo : Nat → Nat → List Char → List Char
  | 0, _, acc => acc
  | fuel + 1, n, acc =>
    if n < 16 then hexDigitChar n :: acc
    else hexDigitsGo fuel (n / 16) (hexDigitChar (n % 16) :: acc)

/-- llvm::format_hex_no_prefix with upper-case digits: at least w digits,
zero-padded. -/
def hexPad (w n : Nat) : List Char :=
  let ds := hexDigitsGo (n + 1) n []
  List.replicate (w - ds.length) (Char.ofNat 48) ++ ds

/-- Byte values of a character list (used for the escape markers, which are
pure ASCII). -/
def charsToBytes (cs : List Char) : List Nat := cs.map Char.toNat

/-- Modelled from the spec: the external Unicode printability table
(llvm::sys::unicode::isPrintable), instantiated on the ASCII range, where a
code point is printable exactly when it is a printable ASCII character and
control characters are unprintable. -/
def uniPrintableModel (c : Nat) : Bool := decide (0x20 ≤ c ∧ c ≤ 0x7E)

/-- Modelled from the spec: the external Unicode formatting-character table
(llvm::sys::unicode::isFormatting); no ASCII character is a formatting (Cf)
character. -/
def uniFormattingModel (_ : Nat) : Bool := false

/-- Loop body of clang::EscapeStringForDiagnostic over a byte string, with the
Unicode tables passed in: printable or whitespace ASCII bytes pass through;
a legal UTF-8 sequence passes through when its code point is printable or
formatting and otherwise becomes a <U+XXXX> marker; an ill-formed byte becomes
a <XX> marker.  Fuel is an upper bound on the number of loop iterations (the
byte count suffices, as every iteration consumes at least one byte). -/
def escapeGo (uP uF : Nat → Bool) : Nat → List Nat → List Nat
  | 0, _ => []
  | _, [] => []
  | fuel + 1, b :: rest =>
    if isPrintableAscii b || isWhitespaceAscii b then
      b :: escapeGo uP uF fuel rest
    else
      match utf8Decode1 (b :: rest) with
      | some (cp, n) =>
        if uP cp || uF cp then
          (b :: rest).take n ++ escapeGo uP uF fuel ((b :: rest).drop n)
        else
          charsToBytes (Char.ofNat 60 :: Char.ofNat 85 :: Char.ofNat 43 ::
              hexPad 4 cp ++ [Char.ofNat 62]) ++
            escapeGo uP uF fuel ((b :: rest).drop n)
      | none =>
        charsToBytes (Char.ofNat 60 :: hexPad 2 b ++ [Char.ofNat 62]) ++
          escapeGo uP uF fuel rest

/-- clang::EscapeStringForDiagnostic on a byte string. -/
def EscapeStringForDiagnostic (uP uF : Nat → Bool) (l : List Nat) : List Nat :=
  escapeGo uP uF l.length l

/-- Digit test of clang::isDigit. -/
def isDigitC (c : Char) : Bool := decide (48 ≤ c.toNat ∧ c.toNat ≤ 57)

/-- Punctuation test of clang::isPunctuation: printable ASCII that is neither
alphanumeric nor the space character. -/
def isPunctuationC (c : Char) : Bool :=
  decide (0x21 ≤ c.toNat ∧ c.toNat ≤ 0x7E) && !(c.isAlpha || isDigitC c)

/-- ScanFormat: scans forward for the target character, skipping nested
modifier clauses (brace depth tracking) and escaped characters; returns the
index of the hit, or the length of the region when the target is absent.  The
fuel argument bounds the iteration count (the region length suffices). -/
def scanFormatGo (tgt : Char) : Nat → Nat → List Char → Nat
  | 0, _, _ => 0
  | _, _, [] => 0
  | fuel + 1, depth, c :: rest =>
    if depth = 0 ∧ c = tgt then 0
    else
      let depth2 := if depth ≠ 0 ∧ c = Char.ofNat 125 then depth - 1 else depth
      if c = '%' then
        match rest with
        | [] => 1
        | h :: rest2 =>
          if isDigitC h || isPunctuationC h then
            2 + scanFormatGo tgt fuel depth2 rest2
          else
            let skip :=
              (rest2.takeWhile fun x => !(isDigitC x) && (x != Char.ofNat 123)).length
            match rest2.drop skip with
            | [] => 2 + skip
            | t :: rest3 =>
              let depth3 := if t = Char.ofNat 123 then depth2 + 1 else depth2
              2 + skip + 1 + scanFormatGo tgt fuel depth3 rest3
      else 1 + scanFormatGo tgt fuel depth2 rest

/-- ScanFormat from depth zero with sufficient fuel. -/
def scanFmt (tgt : Char) (cs : List Char) : Nat :=
  scanFormatGo tgt cs.length 0 cs

/-- PluralNumber: parse a decimal number, returning it and the rest of the
region. -/
def pluralNumber (cs : List Char) : Nat × List Char :=
  let ds := cs.takeWhile isDigitC
  (ds.foldl (fun a c => a * 10 + (c.toNat - 48)) 0, cs.drop ds.length)

/-- TestPluralRange: a bare number tests equality; a bracketed pair tests an
inclusive range. -/
def testPluralRange (v : Nat) (cs : List Char) : Bool × List Char :=
  match cs with
  | '[' :: rest =>
    let r1 := pluralNumber rest
    match r1.2 with
    | ',' :: r2 =>
      let r3 := pluralNumber r2
      match r3.2 with
      | ']' :: r4 => (decide (r1.1 ≤ v ∧ v ≤ r3.1), r4)
      | _ => (false, r3.2)
    | _ => (false, r1.2)
  | _ =>
    let r := pluralNumber cs
    (r.1 == v, r.2)

/-- The or-expression loop of EvalPluralExpr: evaluate comma-separated numeric
conditions (a range test or a percent-modulo test) until one holds. -/
def evalPluralLoop (valNo : Nat) : Nat → List Char → Bool
  | _, [] => false
  | 0, _ => false
  | fuel + 1, cs =>
    let step :=
      match cs with
      | '%' :: r1 =>
        let a := pluralNumber r1
        match a.2 with
        | '=' :: r3 => testPluralRange (valNo % a.1) r3
        | _ => (false, a.2)
      | _ => testPluralRange valNo cs
    if step.1 then true
    else
      match step.2.dropWhile (fun x => x != ',') with
      | [] => false
      | _ :: r => evalPluralLoop valNo fuel r

/-- EvalPluralExpr: the empty condition always holds; otherwise the
or-expression loop decides. -/
def evalPluralExpr (valNo : Nat) (cond : List Char) : Bool :=
  match cond with
  | [] => true
  | _ => evalPluralLoop valNo cond.length cond

/-- One typed diagnostic argument, mirroring the argument kinds that the
translated FormatDiagnostic switch consumes directly (the opaque
type/declaration kinds are delegated to the external ArgumentStringifier and
are out of scope per the spec).  Null C-string and identifier pointers are
modelled as none. -/
inductive Arg
  | sint (v : Int)
  | uint (v : Nat)
  | stdStr (s : String)
  | cStr (s : Option String)
  | identifierInfo (s : Option String)
deriving DecidableEq, Repr

/-- Truncation of a signed 64-bit value to the unsigned 32-bit ValNo parameter
used by the select/plural/s/ordinal handlers. -/
def toUnsigned32 (v : Int) : Nat := (v % (2 : Int) ^ 32).toNat

/-- The string actually rendered for a string-kind argument, following the
lambda at the head of the string case of the FormatDiagnostic switch: a null
C-string pointer renders as "(null)" rather than being dereferenced. -/
def diagArgStringRef : Arg → String
  | .stdStr s => s
  | .cStr (some sz) => sz
  | .cStr none => "(null)"
  | _ => ""

/-- The characters produced for an identifier argument: a null IdentifierInfo
pointer renders as "(null)" rather than being dereferenced; otherwise the name
in single quotes. -/
def renderIdentifierArg (s? : Option String) : List Char :=
  match s? with
  | none => String.data "(null)"
  | some n => Char.ofNat 39 :: n.data ++ [Char.ofNat 39]

/-- Escaping of a rendered string argument through
clang::EscapeStringForDiagnostic (strings here carry one byte per character;
all strings the claims exercise are ASCII). -/
def escapeChars (s : String) : List Char :=
  (EscapeStringForDiagnostic uniPrintableModel uniFormattingModel
      (charsToBytes s.data)).map Char.ofNat

/-- The string case of the FormatDiagnostic switch: optional quoted modifier,
then escaping. -/
def renderStringArg (a : Arg) (modCs : List Char) : List Char :=
  let s := diagArgStringRef a
  if modCs == String.data "quoted" then
    Char.ofNat 39 :: escapeChars s ++ [Char.ofNat 39]
  else escapeChars s

/-- HandleSelectModifier's pipe-skipping loop. -/
def skipSelectPipes : Nat → List Char → List Char
  | 0, arg => arg
  | v + 1, arg => skipSelectPipes v (arg.drop (scanFmt '|' arg + 1))

/-- HandleSelectModifier: skip ValNo alternatives, then recursively format the
selected alternative. -/
def handleSelect (fmt : List Char → List Char) (valNo : Nat)
    (argument : List Char) : List Char :=
  let argAfter := skipSelectPipes valNo argument
  fmt (argAfter.take (scanFmt '|' argAfter))

/-- HandlePluralModifier: evaluate the clauses in order; the first condition
matching the value selects its form, which is recursively formatted.  Fuel
bounds the clause count (the region length suffices). -/
def handlePlural (fmt : List Char → List Char) (valNo : Nat) :
    Nat → List Char → List Char
  | 0, _ => []
  | fuel + 1, argument =>
    let exprCs := argument.takeWhile (fun x => x != ':')
    match argument.drop exprCs.length with
    | [] => []
    | _ :: afterColon =>
      if evalPluralExpr valNo exprCs then
        fmt (afterColon.take (scanFmt '|' afterColon))
      else
        handlePlural fmt valNo fuel
          (argument.drop (scanFmt '|' argument.dropLast + 1))

/-- HandleOrdinalModifier's suffix choice (llvm::getOrdinalSuffix). -/
def ordinalSuffix (v : Nat) : List Char :=
  if v % 100 = 11 ∨ v % 100 = 12 ∨ v % 100 = 13 then String.data "th"
  else if v % 10 = 1 then String.data "st"
  else if v % 10 = 2 then String.data "nd"
  else if v % 10 = 3 then String.data "rd"
  else String.data "th"

/-- The integer cases of the FormatDiagnostic switch: the select, s, plural
and ordinal modifiers applied to the 32-bit-truncated value, or the plain
decimal rendering.  The human modifier's floating-point rendering is not
modelled (no claim depends on it). -/
def renderIntArg (fmt : List Char → List Char) (uval : Nat) (plain : List Char)
    (modCs argCs : List Char) : List Char :=
  if modCs == String.data "select" then handleSelect fmt uval argCs
  else if modCs == String.data "s" then (if uval ≠ 1 then ['s'] else [])
  else if modCs == String.data "plural" then
    handlePlural fmt uval argCs.length argCs
  else if modCs == String.data "ordinal" then
    String.data (toString uval) ++ ordinalSuffix uval
  else if modCs == String.data "human" then []
  else plain

/-- Dispatch on the selected argument's kind, as in the FormatDiagnostic
switch. -/
def renderArgument (fmt : List Char → List Char) (args : List Arg)
    (argNo : Nat) (modCs argCs : List Char) : List Char :=
  match args.getD argNo (Arg.stdStr "") with
  | Arg.stdStr s => renderStringArg (Arg.stdStr s) modCs
  | Arg.cStr s? => renderStringArg (Arg.cStr s?) modCs
  | Arg.sint v =>
    renderIntArg fmt (toUnsigned32 v) (String.data (toString v)) modCs argCs
  | Arg.uint v =>
    renderIntArg fmt (v % 2 ^ 32) (String.data (toString v)) modCs argCs
  | Arg.identifierInfo s? => renderIdentifierArg s?

/-- The main FormatDiagnostic loop: literal text is copied; a percent followed
by punctuation is an escape; otherwise a placeholder (optional [-a-z]*
modifier, optional brace-enclosed argument scanned with ScanFormat, then the
argument digit) is rendered and formatting continues.  Fuel bounds the total
number of loop steps and recursive clause formattings. -/
def formatDiagGo (args : List Arg) : Nat → List Char → List Char
  | 0, _ => []
  | _, [] => []
  | fuel + 1, c :: rest =>
    if c ≠ '%' then
      let lit := (c :: rest).takeWhile (fun x => x != '%')
      lit ++ formatDiagGo args fuel ((c :: rest).drop lit.length)
    else
      match rest with
      | [] => []
      | c1 :: rest1 =>
        if isPunctuationC c1 then c1 :: formatDiagGo args fuel rest1
        else
          let modCs := rest.takeWhile fun x =>
            (x == '-') || (decide ('a' ≤ x) && decide (x ≤ 'z'))
          let afterMod := rest.drop modCs.length
          let parsed :=
            match afterMod with
            | b :: restArg =>
              if b = Char.ofNat 123 then
                let idx := scanFmt (Char.ofNat 125) restArg
                (restArg.take idx, restArg.drop (idx + 1))
              else (([] : List Char), afterMod)
            | [] => (([] : List Char), afterMod)
          match parsed.2 with
          | [] => []
          | d :: afterDigit =>
            if isDigitC d then
              renderArgument (formatDiagGo args fuel) args (d.toNat - 48) modCs
                  parsed.1 ++
                formatDiagGo args fuel afterDigit
            else []

/-- Diagnostic::FormatDiagnostic over a template region: the fast path for a
template that is exactly "%0" with a std::string argument applies only the
escaper; otherwise the main loop runs with ample fuel. -/
def FormatDiagnostic (args : List Arg) (template : List Char) : List Char :=
  match template, args with
  | '%' :: '0' :: [], Arg.stdStr s :: _ => escapeChars s
  | t, a => formatDiagGo a ((t.length + 1) * (t.length + 1)) t

/-- A mapping table in which every diagnostic is currently mapped to Fatal
with all flag bits clear. -/
def fatalState : DiagState := fun _ =>
  { severity := Severity.Fatal
    isUser := false
    isPragma := false
    noWarningAsError := false
    noErrorAsFatal := false
    wasUpgradedFromWarning := false }

/-- A mapping table in which every diagnostic is mapped to Error with the
NoWarningAsError bit already set. -/
def errorNoWAsEState : DiagState := fun _ =>
  { severity := Severity.Error
    isUser := false
    isPragma := false
    noWarningAsError := true
    noErrorAsFatal := false
    wasUpgradedFromWarning := false }

/-- Engine state right after twenty counted errors with errorLimit twenty. -/
def engineAtLimit : EngineState :=
  { initialEngineState 20 with numErrors := 20, lastDiagLevel := Level.Error }

/-- A pragma engine whose push stack is empty. -/
def pragmaE0 : PragmaEngine :=
  { curState := 3, transitions := [⟨3, 0⟩], pushStack := [] }

/-- Claim C7: pushMappings immediately followed by popMappings with no
intervening severity change restores the engine exactly as it was — in
particular no transition point is recorded in the location-state map — and
popMappings returns true; popMappings on an empty push stack returns false
and changes nothing. -/
theorem push_pop_noop :
    (∀ (e : PragmaEngine) (loc : Nat), popMappings (pushMappings e) loc = (e, true)) ∧
    (∀ (e : PragmaEngine) (loc : Nat), e.pushStack = [] →
      popMappings e loc = (e, false)) := by
  constructor
  · intro e loc
    simp [popMappings, pushMappings]
  · intro e loc h
    simp [popMappings, h]

/-- Witness for C7: a concrete engine with an empty push stack makes the
hypothesis of the second conjunct concrete. -/
theorem push_pop_noop_witness : popMappings pragmaE0 7 = (pragmaE0, false) :=
  push_pop_noop.2 pragmaE0 7 rfl

/-- Appending to a nonempty transition list keeps it nonempty. -/
theorem appendTransition_ne_nil :
    ∀ (ts : List DiagStatePoint) (s off : Nat), ts ≠ [] →
      appendTransition ts s off ≠ [] := by
  intro ts
  induction ts with
  | nil => intro s off h; exact absurd rfl h
  | cons p rest ih =>
    intro s off _
    cases rest with
    | nil =>
      by_cases h1 : p.offset = off <;> by_cases h2 : p.state = s <;>
        simp [appendTransition, h1, h2]
    | cons p2 rest2 => simp [appendTransition]

/-- Every element of an appended transition list is an old element or the new
transition point. -/
theorem appendTransition_mem :
    ∀ (ts : List DiagStatePoint) (s off : Nat) (x : DiagStatePoint),
      x ∈ appendTransition ts s off → x ∈ ts ∨ x = ⟨s, off⟩ := by
  intro ts
  induction ts with
  | nil => intro s off x hx; simp [appendTransition] at hx
  | cons p rest ih =>
    intro s off x hx
    cases rest with
    | nil =>
      by_cases h1 : p.offset = off <;> by_cases h2 : p.state = s <;>
        simp [appendTransition, h1, h2] at hx <;> simp [hx]
    | cons p2 rest2 =>
      simp only [appendTransition, List.mem_cons] at hx
      rcases hx with h | h
      · exact Or.inl (by simp [h])
      · rcases ih s off x h with h2 | h2
        · exact Or.inl (List.mem_cons_of_mem _ h2)
        · exact Or.inr h2

/-- Effect of one append on lookup: at or after the new offset the new state
is found; strictly before it the lookup is unchanged.  Requires the source's
invariant that the appended offset is at or after every recorded offset. -/
theorem lookup_append :
    ∀ (ts : List DiagStatePoint) (s off : Nat), ts ≠ [] →
      (∀ p ∈ ts, p.offset ≤ off) →
      ∀ q, lookupTransition (appendTransition ts s off) q =
        if off ≤ q then some s else lookupTransition ts q := by
  intro ts
  induction ts with
  | nil => intro s off h; exact absurd rfl h
  | cons p rest ih =>
    intro s off _ hall q
    cases rest with
    | nil =>
      have hp : p.offset ≤ off := hall p (by simp)
      by_cases h1 : p.offset = off
      · by_cases h2 : p.state = s <;> by_cases hq : off ≤ q <;>
          simp [appendTransition, lookupTransition, h1, h2, hq]
      · have hlt : p.offset < off := lt_of_le_of_ne hp h1
        by_cases hq : off ≤ q
        · have hpq : p.offset ≤ q := le_trans hp hq
          simp [appendTransition, lookupTransition, h1, hq, hpq]
        · simp [appendTransition, lookupTransition, h1, hq]
    | cons p2 rest2 =>
      have hall2 : ∀ x ∈ p2 :: rest2, x.offset ≤ off := fun x hx =>
        hall x (List.mem_cons_of_mem _ hx)
      have ihx := ih s off (by simp) hall2 q
      by_cases hq : off ≤ q
      · have hpq : p.offset ≤ q := le_trans (hall p (by simp)) hq
        simp [appendTransition, lookupTransition, ihx, hq, hpq]
      · simp [appendTransition, lookupTransition, ihx, hq]

/-- Replaying recorded transitions in offset order computes, pointwise, the
last-written state at or before each query offset. -/
theorem runCalls_lookup :
    ∀ (calls : List (Nat × Nat)) (ts : List DiagStatePoint) (g : Nat → Nat),
      ts ≠ [] →
      (∀ q, lookupTransition ts q = some (g q)) →
      (∀ p ∈ ts, ∀ c ∈ calls, p.offset ≤ c.1) →
      List.Pairwise (fun a b => a ≤ b) (calls.map Prod.fst) →
      ∀ q, lookupTransition (runSetSeverityCalls ts calls) q =
        some (calls.foldl (fun a c => if c.1 ≤ q then c.2 else a) (g q)) := by
  intro calls
  induction calls with
  | nil =>
    intro ts g hne hg hb hpw q
    simpa [runSetSeverityCalls] using hg q
  | cons c rest ih =>
    intro ts g hne hg hb hpw q
    simp only [List.map_cons, List.pairwise_cons] at hpw
    have hall : ∀ p ∈ ts, p.offset ≤ c.1 := fun p hp => hb p hp c (by simp)
    have hts2 : appendTransition ts c.2 c.1 ≠ [] :=
      appendTransition_ne_nil ts c.2 c.1 hne
    have hg2 : ∀ q2, lookupTransition (appendTransition ts c.2 c.1) q2 =
        some (if c.1 ≤ q2 then c.2 else g q2) := by
      intro q2
      rw [lookup_append ts c.2 c.1 hne hall q2]
      by_cases h : c.1 ≤ q2 <;> simp [h, hg q2]
    have hb2 : ∀ p ∈ appendTransition ts c.2 c.1, ∀ d ∈ rest, p.offset ≤ d.1 := by
      intro p hp d hd
      rcases appendTransition_mem ts c.2 c.1 p hp with h | h
      · exact hb p h d (List.mem_cons_of_mem _ hd)
      · subst h
        exact hpw.1 d.1 (List.mem_map_of_mem Prod.fst hd)
    have hrec := ih (appendTransition ts c.2 c.1)
      (fun q2 => if c.1 ≤ q2 then c.2 else g q2) hts2 hg2 hb2 hpw.2 q
    simpa [runSetSeverityCalls] using hrec

/-- Claim C5: for a sequence of setSeverity transition recordings at
non-decreasing offsets within one file (strictly increasing sequences are the
special case), a lookup at any offset returns the state produced by the latest
call whose offset is at or before the queried offset, with last-write-wins
when two calls share an offset, and the initial state when no call precedes
the query. -/
theorem setSeverity_location_lookup (init : Nat) (calls : List (Nat × Nat)) (q : Nat)
    (hsorted : List.Pairwise (fun a b => a ≤ b) (calls.map Prod.fst)) :
    lookupTransition (runSetSeverityCalls [⟨init, 0⟩] calls) q =
      some (latestStateAtOrBefore init calls q) := by
  have h0 : ∀ q2, lookupTransition [(⟨init, 0⟩ : DiagStatePoint)] q2 = some init := by
    intro q2; simp [lookupTransition]
  have hb : ∀ p ∈ [(⟨init, 0⟩ : DiagStatePoint)], ∀ c ∈ calls, p.offset ≤ c.1 := by
    intro p hp c _
    simp at hp
    simp [hp]
  simpa [latestStateAtOrBefore] using
    runCalls_lookup calls [⟨init, 0⟩] (fun _ => init) (by simp) h0 hb hsorted q

/-- Witness for C5: three recordings at offsets 5, 9, 9; the query at offset 9
sees the last write at offset 9. -/
theorem setSeverity_location_lookup_witness :
    lookupTransition (runSetSeverityCalls [⟨50, 0⟩] [(5, 101), (9, 102), (9, 103)]) 9 =
      some 103 :=
  (setSeverity_location_lookup 50 [(5, 101), (9, 102), (9, 103)] 9
      (by decide)).trans (by decide)

/-- Claim C4: a command-line setSeverity (invalid location) requesting Warning
for a diagnostic currently mapped to Error or Fatal keeps the existing
stronger severity and marks the mapping as upgraded from warning; and for
every setSeverity call, the resulting mapping's NoWarningAsError flag is true
whenever the pre-existing mapping's flag was true. -/
theorem setSeverity_no_downgrade (st : DiagState) (d : Nat)
    (h : (st d).severity = Severity.Error ∨ (st d).severity = Severity.Fatal) :
    (setSeverity st d Severity.Warning false d).severity = (st d).severity ∧
    (setSeverity st d Severity.Warning false d).wasUpgradedFromWarning = true ∧
    ∀ (st2 : DiagState) (d2 : Nat) (m : Severity) (lv : Bool),
      (st2 d2).noWarningAsError = true →
        (setSeverity st2 d2 m lv d2).noWarningAsError = true := by
  refine ⟨?_, ?_, ?_⟩
  · rcases h with h | h <;> simp [setSeverity, setMapping, makeUserMapping, h]
  · rcases h with h | h <;> simp [setSeverity, setMapping, makeUserMapping, h]
  · intro st2 d2 m lv h2
    simp [setSeverity, setMapping, makeUserMapping, h2]

/-- Witness for C4: a diagnostic mapped to Error with NoWarningAsError set
keeps both across a command-line Warning request. -/
theorem setSeverity_no_downgrade_witness :
    (setSeverity errorNoWAsEState 3 Severity.Warning false 3).severity =
      Severity.Error ∧
    (setSeverity errorNoWAsEState 3 Severity.Warning false 3).wasUpgradedFromWarning =
      true :=
  ⟨(setSeverity_no_downgrade errorNoWAsEState 3 (Or.inl rfl)).1,
   (setSeverity_no_downgrade errorNoWAsEState 3 (Or.inl rfl)).2.1⟩

/-- Counterexample to claim C6 as stated: disabling warnings-as-errors for a
group member currently mapped to Fatal sets it to Warning, not to Error as the
one-step-downgrade reading requires. -/
theorem group_downgrade_cex :
    (setDiagnosticGroupWarningAsError [0] false fatalState 0).severity =
      Severity.Warning ∧
    Severity.Warning ≠ Severity.Error := by decide

/-- A fold of a per-diagnostic update leaves diagnostics outside the list
untouched. -/
theorem foldl_untouched (f : DiagState → Nat → DiagState)
    (hother : ∀ (s : DiagState) (d x : Nat), x ≠ d → f s d x = s x) :
    ∀ (l : List Nat) (st : DiagState) (x : Nat), x ∉ l →
      (l.foldl f st) x = st x := by
  intro l
  induction l with
  | nil => intro st x _; rfl
  | cons a l2 ih =>
    intro st x hx
    have hxa : x ≠ a := fun hcl => hx (hcl ▸ List.mem_cons_self a l2)
    have hxl : x ∉ l2 := fun hcl => hx (List.mem_cons_of_mem a hcl)
    simp only [List.foldl_cons]
    rw [ih (f st a) x hxl, hother st a x hxa]

/-- A fold of a per-diagnostic update whose effect at its own key depends only
on that key's current mapping applies that effect exactly once to each member
of a duplicate-free list. -/
theorem foldl_at_key (f : DiagState → Nat → DiagState)
    (g : DiagnosticMapping → DiagnosticMapping)
    (hother : ∀ (s : DiagState) (d x : Nat), x ≠ d → f s d x = s x)
    (hself : ∀ (s : DiagState) (d : Nat), f s d d = g (s d)) :
    ∀ (l : List Nat) (st : DiagState) (x : Nat), l.Nodup → x ∈ l →
      (l.foldl f st) x = g (st x) := by
  intro l
  induction l with
  | nil => intro st x _ hx; simp at hx
  | cons a l2 ih =>
    intro st x hnd hx
    simp only [List.foldl_cons]
    rcases List.mem_cons.mp hx with h | h
    · subst h
      have hnotin : x ∉ l2 := (List.nodup_cons.mp hnd).1
      rw [foldl_untouched f hother l2 (f st x) x hnotin, hself]
    · have hxa : x ≠ a := by
        intro he
        exact (List.nodup_cons.mp hnd).1 (he ▸ h)
      rw [ih (f st a) x (List.nodup_cons.mp hnd).2 h, hother st a x hxa]

/-- Claim C6 (amended): for a duplicate-free group member list, disabling
warnings-as-errors sets every member currently at Error or Fatal to Warning
(not one step down) and sets NoWarningAsError on every member; disabling
errors-as-fatal sets members at Fatal back to Error, leaves Error members at
Error, and sets NoErrorAsFatal on every member; enabling either maps every
member to Error (respectively Fatal) unconditionally. -/
theorem group_toggles (l : List Nat) (st : DiagState) (d : Nat)
    (hnd : l.Nodup) (hd : d ∈ l) :
    ((setDiagnosticGroupWarningAsError l false st d).severity =
      if (st d).severity = Severity.Error ∨ (st d).severity = Severity.Fatal
      then Severity.Warning else (st d).severity) ∧
    (setDiagnosticGroupWarningAsError l false st d).noWarningAsError = true ∧
    (setDiagnosticGroupWarningAsError l true st d).severity = Severity.Error ∧
    ((setDiagnosticGroupErrorAsFatal l false st d).severity =
      if (st d).severity = Severity.Fatal then Severity.Error
      else (st d).severity) ∧
    (setDiagnosticGroupErrorAsFatal l false st d).noErrorAsFatal = true ∧
    (setDiagnosticGroupErrorAsFatal l true st d).severity = Severity.Fatal := by
  have hWd := foldl_at_key warningAsErrorDisableOne
    (fun m =>
      { (if (m.severity == Severity.Error) || (m.severity == Severity.Fatal) then
          { m with severity := Severity.Warning }
        else m) with noWarningAsError := true })
    (by intro s dd x hx; simp [warningAsErrorDisableOne, setMapping, hx])
    (by intro s dd; simp [warningAsErrorDisableOne, setMapping])
    l st d hnd hd
  have hWe := foldl_at_key (fun s dd => setSeverity s dd Severity.Error false)
    (fun m =>
      { severity := Severity.Error
        isUser := true
        isPragma := false
        noWarningAsError := m.noWarningAsError
        noErrorAsFatal := false
        wasUpgradedFromWarning := false })
    (by intro s dd x hx; simp [setSeverity, setMapping, makeUserMapping, hx])
    (by intro s dd; simp [setSeverity, setMapping, makeUserMapping])
    l st d hnd hd
  have hFd := foldl_at_key errorAsFatalDisableOne
    (fun m =>
      { (if m.severity == Severity.Fatal then { m with severity := Severity.Error }
        else m) with noErrorAsFatal := true })
    (by intro s dd x hx; simp [errorAsFatalDisableOne, setMapping, hx])
    (by intro s dd; simp [errorAsFatalDisableOne, setMapping])
    l st d hnd hd
  have hFe := foldl_at_key (fun s dd => setSeverity s dd Severity.Fatal false)
    (fun m =>
      { severity := Severity.Fatal
        isUser := true
        isPragma := false
        noWarningAsError := m.noWarningAsError
        noErrorAsFatal := false
        wasUpgradedFromWarning := false })
    (by intro s dd x hx; simp [setSeverity, setMapping, makeUserMapping, hx])
    (by intro s dd; simp [setSeverity, setMapping, makeUserMapping])
    l st d hnd hd
  refine ⟨?_, ?_, ?_, ?_, ?_, ?_⟩
  · show (List.foldl warningAsErrorDisableOne st l d).severity = _
    rw [hWd]
    rcases h5 : (st d).severity <;> simp [h5]
  · show (List.foldl warningAsErrorDisableOne st l d).noWarningAsError = true
    rw [hWd]
  · show (List.foldl (fun s dd => setSeverity s dd Severity.Error false) st l d).severity = _
    rw [hWe]
  · show (List.foldl errorAsFatalDisableOne st l d).severity = _
    rw [hFd]
    rcases h5 : (st d).severity <;> simp [h5]
  · show (List.foldl errorAsFatalDisableOne st l d).noErrorAsFatal = true
    rw [hFd]
  · show (List.foldl (fun s dd => setSeverity s dd Severity.Fatal false) st l d).severity = _
    rw [hFe]

/-- Witness for C6 (amended): a singleton group at Fatal, disabling
errors-as-fatal yields Error. -/
theorem group_toggles_witness :
    (setDiagnosticGroupErrorAsFatal [0] false fatalState 0).severity =
      Severity.Error :=
  ((group_toggles [0] fatalState 0 (by decide) (by decide)).2.2.2.1).trans (by decide)

/-- ProcessDiag at any fuel is the body with the fuel-indexed synthetic
report. -/
theorem ProcessDiag_as_body (env : DiagEnv) (fuel : Nat) (st : EngineState)
    (id : Nat) (lvl : Level) :
    ProcessDiag env fuel st id lvl =
      ProcessDiagBody env
        (fun st3 =>
          match fuel with
          | 0 => (st3, [])
          | fuel2 + 1 =>
            let r := ProcessDiag env fuel2 st3 env.tooManyId env.tooManyLevel
            (r.1, r.2.1))
        st id lvl := by
  cases fuel <;> rfl

/-- Once the fatal-error flag is set, ProcessDiagBody delivers nothing and the
flag stays set. -/
theorem body_after_fatal_flag (env : DiagEnv)
    (syn : EngineState → EngineState × List (Level × Nat))
    (st : EngineState) (id : Nat) (lvl : Level)
    (hfo : st.fatalErrorOccurred = true) :
    (ProcessDiagBody env syn st id lvl).2.1 = [] ∧
    (ProcessDiagBody env syn st id lvl).1.fatalErrorOccurred = true := by
  cases lvl <;>
    by_cases hs : st.suppressAllDiagnostics = true <;>
      by_cases hc : env.includeInCounts = true <;>
        simp [ProcessDiagBody, Level.isAtLeastError, Level.ord, hs, hc, hfo]

/-- Once the fatal-error flag is set, ProcessDiag delivers nothing and the
flag stays set. -/
theorem processDiag_after_fatal_flag (env : DiagEnv) (fuel : Nat)
    (st : EngineState) (id : Nat) (lvl : Level)
    (hfo : st.fatalErrorOccurred = true) :
    (ProcessDiag env fuel st id lvl).2.1 = [] ∧
    (ProcessDiag env fuel st id lvl).1.fatalErrorOccurred = true := by
  rw [ProcessDiag_as_body]
  exact body_after_fatal_flag env _ st id lvl hfo

/-- Once the fatal-error flag is set, a whole run delivers nothing and the
flag stays set. -/
theorem runDiags_after_fatal (env : DiagEnv) (fuel : Nat) :
    ∀ (ds : List (Nat × Level)) (st : EngineState),
      st.fatalErrorOccurred = true →
      (runDiags env fuel st ds).2 = [] ∧
      (runDiags env fuel st ds).1.fatalErrorOccurred = true := by
  intro ds
  induction ds with
  | nil => intro st h; exact ⟨rfl, h⟩
  | cons d ds2 ih =>
    intro st h
    have h1 := processDiag_after_fatal_flag env fuel st d.1 d.2 h
    have h2 := ih (ProcessDiag env fuel st d.1 d.2).1 h1.2
    simp [runDiags, h1.1, h2.1, h2.2]

/-- A Note right after a delivered fatal is handed to the consumer and changes
nothing in the engine state. -/
theorem processDiag_note_after_fatal (env : DiagEnv) (fuel : Nat)
    (st : EngineState) (id : Nat)
    (hlast : st.lastDiagLevel = Level.Fatal) (hfo : st.fatalErrorOccurred = false)
    (hsup : st.suppressAllDiagnostics = false) (hid : id ≠ env.tooManyId) :
    ProcessDiag env fuel st id Level.Note = (st, [(Level.Note, id)], true) := by
  rw [ProcessDiag_as_body]
  simp [ProcessDiagBody, reportToConsumer, hlast, hfo, hsup, hid,
    Level.isAtLeastError, Level.ord]

/-- The first non-Note diagnostic after a delivered fatal sets the fatal-error
flag and is itself swallowed. -/
theorem processDiag_nonNote_after_fatal (env : DiagEnv) (fuel : Nat)
    (st : EngineState) (id : Nat) (lvl : Level)
    (hlast : st.lastDiagLevel = Level.Fatal) (hfo : st.fatalErrorOccurred = false)
    (hsup : st.suppressAllDiagnostics = false) (hn : lvl ≠ Level.Note) :
    (ProcessDiag env fuel st id lvl).2.1 = [] ∧
    (ProcessDiag env fuel st id lvl).1.fatalErrorOccurred = true := by
  rw [ProcessDiag_as_body]
  cases lvl
  case Note => exact absurd rfl hn
  all_goals
    by_cases hc : env.includeInCounts = true <;>
      simp [ProcessDiagBody, Level.isAtLeastError, Level.ord, hlast, hfo, hsup,
        hc]

/-- A Fatal diagnostic processed while no fatal cascade is active is itself
delivered; afterwards the last level is Fatal and the fatal-error flag is
still unset (the cascade is armed, not yet fired). -/
theorem processDiag_fatal_delivered (env : DiagEnv) (fuel : Nat)
    (st : EngineState) (id : Nat)
    (hlast : st.lastDiagLevel ≠ Level.Fatal) (hfo : st.fatalErrorOccurred = false)
    (hsup : st.suppressAllDiagnostics = false) (hid : id ≠ env.tooManyId) :
    (ProcessDiag env fuel st id Level.Fatal).2.1 = [(Level.Fatal, id)] ∧
    (ProcessDiag env fuel st id Level.Fatal).2.2 = true ∧
    (ProcessDiag env fuel st id Level.Fatal).1.lastDiagLevel = Level.Fatal ∧
    (ProcessDiag env fuel st id Level.Fatal).1.fatalErrorOccurred = false ∧
    (ProcessDiag env fuel st id Level.Fatal).1.suppressAllDiagnostics = false := by
  have hb : (st.lastDiagLevel == Level.Fatal) = false := by
    simp [hlast]
  rw [ProcessDiag_as_body]
  by_cases hc : env.includeInCounts = true <;>
    simp [ProcessDiagBody, reportToConsumer, hsup, hfo, hb, hid, hc,
      Level.isAtLeastError, Level.ord]

/-- A run of Notes (none carrying the synthetic too-many-errors ID) right
after a delivered fatal is delivered verbatim and leaves the state unchanged. -/
theorem runDiags_notes_after_fatal (env : DiagEnv) (fuel : Nat) :
    ∀ (notes : List (Nat × Level)) (st : EngineState),
      st.lastDiagLevel = Level.Fatal → st.fatalErrorOccurred = false →
      st.suppressAllDiagnostics = false →
      (∀ x ∈ notes, x.2 = Level.Note ∧ x.1 ≠ env.tooManyId) →
      runDiags env fuel st notes = (st, notes.map fun x => (Level.Note, x.1)) := by
  intro notes
  induction notes with
  | nil => intro st _ _ _ _; rfl
  | cons d ds ih =>
    intro st h1 h2 h3 h4
    have hd := h4 d (List.mem_cons_self d ds)
    have hstep : ProcessDiag env fuel st d.1 d.2 = (st, [(Level.Note, d.1)], true) := by
      rw [hd.1]
      exact processDiag_note_after_fatal env fuel st d.1 h1 h2 h3 hd.2
    have hrest := ih st h1 h2 h3 (fun x hx => h4 x (List.mem_cons_of_mem d hx))
    simp [runDiags, hstep, hrest]

/-- Splitting a run of diagnostics at any point. -/
theorem runDiags_append (env : DiagEnv) (fuel : Nat) :
    ∀ (l1 l2 : List (Nat × Level)) (st : EngineState),
      runDiags env fuel st (l1 ++ l2) =
        ((runDiags env fuel (runDiags env fuel st l1).1 l2).1,
         (runDiags env fuel st l1).2 ++
           (runDiags env fuel (runDiags env fuel st l1).1 l2).2) := by
  intro l1
  induction l1 with
  | nil => intro l2 st; simp [runDiags]
  | cons d ds ih => intro l2 st; simp [runDiags, ih]

/-- Claim C1 (amended): after a delivered Fatal diagnostic, the Note-level
diagnostics immediately following it are delivered (so its attached notes
still print), but no later non-Note diagnostic ever reaches the consumer: the
first subsequent non-Note diagnostic sets fatalErrorOccurred and is itself
swallowed, and every diagnostic after it (notes included) is swallowed as
well. -/
theorem fatal_cascade (env : DiagEnv) (st : EngineState) (fid : Nat)
    (notes : List (Nat × Level)) (d : Nat × Level) (rest : List (Nat × Level))
    (fuel : Nat)
    (hsup : st.suppressAllDiagnostics = false)
    (hfo : st.fatalErrorOccurred = false)
    (hlast : st.lastDiagLevel ≠ Level.Fatal) (hfid : fid ≠ env.tooManyId)
    (hnotes : ∀ x ∈ notes, x.2 = Level.Note ∧ x.1 ≠ env.tooManyId)
    (hd : d.2 ≠ Level.Note) :
    (runDiags env fuel st ((fid, Level.Fatal) :: (notes ++ d :: rest))).2 =
      (Level.Fatal, fid) :: (notes.map fun x => (Level.Note, x.1)) ∧
    (runDiags env fuel st ((fid, Level.Fatal) :: (notes ++ d :: rest))).1.fatalErrorOccurred =
      true := by
  obtain ⟨hout, _, hl1, hl2, hl3⟩ :=
    processDiag_fatal_delivered env fuel st fid hlast hfo hsup hfid
  set st1 := (ProcessDiag env fuel st fid Level.Fatal).1 with hst1
  have hnotesrun := runDiags_notes_after_fatal env fuel notes st1 hl1 hl2 hl3 hnotes
  obtain ⟨hdout, hdflag⟩ :=
    processDiag_nonNote_after_fatal env fuel st1 d.1 d.2 hl1 hl2 hl3 hd
  obtain ⟨hrout, hrflag⟩ :=
    runDiags_after_fatal env fuel rest (ProcessDiag env fuel st1 d.1 d.2).1 hdflag
  constructor
  · simp [runDiags, runDiags_append, hout, hnotesrun, hdout, hrout]
  · simp [runDiags, runDiags_append, hnotesrun, hdout, hrout, hrflag]

/-- Counterexample to claim C1 as stated: with an Error processed right after
a delivered Fatal, the consumer receives only the fatal itself — zero (not
exactly one) later non-Note diagnostics reach the consumer, so the total
number of delivered non-Note diagnostics is one rather than two. -/
theorem fatal_cascade_cex :
    (runDiags env0 2 (initialEngineState 0) [(1, Level.Fatal), (2, Level.Error)]).2 =
      [(Level.Fatal, 1)] ∧
    ((runDiags env0 2 (initialEngineState 0)
        [(1, Level.Fatal), (2, Level.Error)]).2.filter
          fun x => x.1 != Level.Note).length ≠ 2 := by
  decide

/-- Witness for C1 (amended): a fatal, one attached note, then an error and a
warning; only the fatal and the note are delivered. -/
theorem fatal_cascade_witness :
    (runDiags env0 1 (initialEngineState 0)
        ((1, Level.Fatal) :: ([(2, Level.Note)] ++ (3, Level.Error) ::
          [(4, Level.Warning)]))).2 =
      (Level.Fatal, 1) :: ([(2, Level.Note)].map fun x => (Level.Note, x.1)) :=
  (fatal_cascade env0 (initialEngineState 0) 1 [(2, Level.Note)] (3, Level.Error)
      [(4, Level.Warning)] 1 rfl rfl (by decide) (by decide) (by decide)
      (by decide)).1

/-- Claim C2: from any state with no fatal cascade active, counting consumer,
a positive error limit already reached by the error count, processing one more
diagnostic at exactly Error level makes ProcessDiag deliver exactly the one
synthetic too-many-errors fatal diagnostic instead of the original (returning
false for the original), set fatalErrorOccurred during the synthetic
diagnostic's own processing, and deliver nothing for any sequence of
diagnostics processed afterwards. -/
theorem errorLimit_synthetic_fatal (env : DiagEnv) (st : EngineState)
    (id fuel : Nat)
    (hsup : st.suppressAllDiagnostics = false)
    (hfo : st.fatalErrorOccurred = false)
    (hlast : st.lastDiagLevel ≠ Level.Fatal)
    (hlim : st.errorLimit ≠ 0)
    (hnum : st.errorLimit ≤ st.numErrors)
    (hcnt : env.includeInCounts = true)
    (hlvl : env.tooManyLevel = Level.Fatal) :
    (ProcessDiag env (fuel + 1) st id Level.Error).2.1 =
      [(Level.Fatal, env.tooManyId)] ∧
    (ProcessDiag env (fuel + 1) st id Level.Error).2.2 = false ∧
    (ProcessDiag env (fuel + 1) st id Level.Error).1.fatalErrorOccurred = true ∧
    ∀ (ds : List (Nat × Level)) (fuel2 : Nat),
      (runDiags env fuel2 (ProcessDiag env (fuel + 1) st id Level.Error).1 ds).2 =
        [] := by
  have hb : (st.lastDiagLevel == Level.Fatal) = false := by
    simp [hlast]
  have hgt : st.errorLimit < st.numErrors + 1 := Nat.lt_succ_of_le hnum
  have key : (ProcessDiag env (fuel + 1) st id Level.Error).2.1 =
      [(Level.Fatal, env.tooManyId)] ∧
      (ProcessDiag env (fuel + 1) st id Level.Error).2.2 = false ∧
      (ProcessDiag env (fuel + 1) st id Level.Error).1.fatalErrorOccurred = true := by
    rw [ProcessDiag_as_body]
    simp only [ProcessDiagBody, reportToConsumer, hsup, hfo, hb, hlim, hgt, hcnt]
    rw [hlvl, ProcessDiag_as_body]
    simp [ProcessDiagBody, reportToConsumer, hsup, hfo, hb, hlim, hgt, hcnt,
      Level.isAtLeastError, Level.ord]
  exact ⟨key.1, key.2.1, key.2.2, fun ds fuel2 =>
    (runDiags_after_fatal env fuel2 ds _ key.2.2).1⟩

/-- Witness for C2: twenty counted errors at error limit twenty; the
twenty-first error yields exactly the synthetic fatal and arms the cascade. -/
theorem errorLimit_witness :
    (ProcessDiag env0 5 engineAtLimit 7 Level.Error).2.1 =
      [(Level.Fatal, 99)] ∧
    (ProcessDiag env0 5 engineAtLimit 7 Level.Error).1.fatalErrorOccurred =
      true :=
  ⟨(errorLimit_synthetic_fatal env0 engineAtLimit 7 4 rfl rfl (by decide)
      (by decide) (by decide) rfl rfl).1,
   (errorLimit_synthetic_fatal env0 engineAtLimit 7 4 rfl rfl (by decide)
      (by decide) (by decide) rfl rfl).2.2.1⟩

/-- The nested category-then-glob fold of globsMatches equals one scan over
the flattened (pattern, positivity) pairs. -/
theorem globs_foldl_pairs (m : String → String → Bool) (path : String) :
    ∀ (cats : List (String × List String)) (acc : String × Bool),
      cats.foldl
        (fun acc ent =>
          ent.2.foldl (fun a g => globScanStep m path a (g, ent.1 != "emit")) acc)
        acc =
      (sectionPairs cats).foldl (globScanStep m path) acc := by
  intro cats
  induction cats with
  | nil => intro acc; rfl
  | cons ent rest ih =>
    intro acc
    simp only [List.foldl_cons, sectionPairs, List.foldl_append, List.foldl_map,
      ih]

/-- Skipping non-matching pairs first does not change the scan. -/
theorem foldl_filter_match (m : String → String → Bool) (path : String) :
    ∀ (pairs : List (String × Bool)) (acc : String × Bool),
      pairs.foldl (globScanStep m path) acc =
      (pairs.filter fun c => m c.1 path).foldl
        (fun a c => if c.1.length < a.1.length then a else c) acc := by
  intro pairs
  induction pairs with
  | nil => intro acc; rfl
  | cons c rest ih =>
    intro acc
    by_cases hm : m c.1 path = true
    · simp only [List.foldl_cons, List.filter_cons, hm, if_true]
      rw [ih]
      congr 1
      simp [globScanStep, hm]
    · have hm2 : m c.1 path = false := by
        simpa using hm
      simp only [List.foldl_cons, List.filter_cons, hm2, Bool.false_eq_true,
        if_false]
      rw [ih]
      congr 1
      simp [globScanStep, hm2]

/-- The longest-so-far scan over the matching pairs computes the last
candidate of maximal pattern length (and its length is that maximum). -/
theorem foldl_lenstep_lastmax :
    ∀ (cands : List (String × Bool)),
      cands.foldl (fun a c => if c.1.length < a.1.length then a else c)
          ("", false) =
        ((cands.filter fun c => c.1.length == maxPatternLen cands).getLast?).getD
          ("", false) ∧
      (cands.foldl (fun a c => if c.1.length < a.1.length then a else c)
          ("", false)).1.length = maxPatternLen cands := by
  intro cands
  induction cands using List.reverseRecOn with
  | nil => exact ⟨rfl, rfl⟩
  | append_singleton xs c ih =>
    have hmax : maxPatternLen (xs ++ [c]) = max (maxPatternLen xs) c.1.length := by
      simp [maxPatternLen, List.foldl_append]
    have hfold : (xs ++ [c]).foldl
        (fun a c => if c.1.length < a.1.length then a else c) ("", false) =
        (if c.1.length <
            (xs.foldl (fun a c => if c.1.length < a.1.length then a else c)
              ("", false)).1.length then
          xs.foldl (fun a c => if c.1.length < a.1.length then a else c)
            ("", false)
        else c) := by
      simp [List.foldl_append]
    by_cases hlt : c.1.length < maxPatternLen xs
    · have hm : maxPatternLen (xs ++ [c]) = maxPatternLen xs := by
        rw [hmax]
        omega
      have hpc : (c.1.length == maxPatternLen xs) = false := by
        simp only [beq_eq_false_iff_ne, ne_eq]
        omega
      have hfilter : ((xs ++ [c]).filter
          fun x => x.1.length == maxPatternLen (xs ++ [c])) =
          xs.filter fun x => x.1.length == maxPatternLen xs := by
        rw [hm, List.filter_append]
        simp [hpc]
      have hcond : c.1.length <
          (xs.foldl (fun a c => if c.1.length < a.1.length then a else c)
            ("", false)).1.length := by
        rw [ih.2]
        exact hlt
      constructor
      · rw [hfold, if_pos hcond, hfilter, ih.1]
      · rw [hfold, if_pos hcond, ih.2, hm]
    · have hm : maxPatternLen (xs ++ [c]) = c.1.length := by
        rw [hmax]
        omega
      have hfilter : ((xs ++ [c]).filter
          fun x => x.1.length == maxPatternLen (xs ++ [c])) =
          (xs.filter fun x => x.1.length == maxPatternLen (xs ++ [c])) ++ [c] := by
        rw [List.filter_append]
        congr 1
        rw [hm]
        simp
      have hcond : ¬ c.1.length <
          (xs.foldl (fun a c => if c.1.length < a.1.length then a else c)
            ("", false)).1.length := by
        rw [ih.2]
        omega
      constructor
      · rw [hfold, if_neg hcond, hfilter]
        simp
      · rw [hfold, if_neg hcond, hm]

/-- globsMatches is the positivity of the winning candidate: the longest
matching pattern, ties among equal-length matches resolved in favor of the
later encountered entry, no match meaning not suppressed. -/
theorem globsMatches_winner (m : String → String → Bool)
    (cats : List (String × List String)) (path : String) :
    globsMatches m cats path =
      ((winningCandidate m cats path).map fun c => c.2).getD false := by
  simp only [globsMatches, winningCandidate, srcMatchCandidates]
  rw [globs_foldl_pairs m path cats ("", false),
    foldl_filter_match m path (sectionPairs cats) ("", false),
    (foldl_lenstep_lastmax ((sectionPairs cats).filter fun c => m c.1 path)).1]
  cases hl : (((sectionPairs cats).filter fun c => m c.1 path).filter
      fun c => c.1.length ==
        maxPatternLen ((sectionPairs cats).filter fun c => m c.1 path)).getLast? <;>
    simp [hl]

/-- Claim C3: a diagnostic with no owning suppression section is never
suppressed; otherwise only the "src"-keyed entries of the owning section are
consulted and the single longest glob pattern matching the resolved path wins,
with ties among equal-length matches broken by encounter order (later entry
prevails), the result being true exactly when the winning category is not
"emit".  In particular, with a warn-A section mapping src to emit "*.gen.cc"
followed later by a warn-A section mapping src to block "x/*.cc", a warn-A
diagnostic at path x/y.cc is suppressed and one at z.gen.cc is not. -/
theorem isDiagSuppressed_spec :
    (∀ (dts : Nat → Option SCLSection) (m : String → String → Bool)
        (id : Nat) (p : Option String),
      isDiagSuppressed dts m id p =
        match dts id with
        | none => false
        | some sec =>
          match lookupEntry sec.entries "src" with
          | none => false
          | some cats =>
            match p with
            | some path =>
              ((winningCandidate m cats path).map fun c => c.2).getD false
            | none => false) ∧
    isDiagSuppressed exampleDiagToSection exampleGlobMatch 7 (some "x/y.cc") =
      true ∧
    isDiagSuppressed exampleDiagToSection exampleGlobMatch 7 (some "z.gen.cc") =
      false := by
  refine ⟨?_, by decide, by decide⟩
  intro dts m id p
  unfold isDiagSuppressed
  cases dts id with
  | none => rfl
  | some sec =>
    dsimp only
    cases lookupEntry sec.entries "src" with
    | none => rfl
    | some cats =>
      dsimp only
      cases p with
      | none => rfl
      | some path => exact globsMatches_winner m cats path

/-- Counterexample to claim C8 as stated: the bell byte 0x07 is a legal
single-byte UTF-8 sequence whose code point is unprintable, so the escaper
renders it as the code-point marker U+0007 in angle brackets, not as the
two-digit byte marker the claim predicts. -/
theorem escape_bell_cex :
    EscapeStringForDiagnostic uniPrintableModel uniFormattingModel [0x07] =
      charsToBytes (String.data "<U+0007>") ∧
    charsToBytes (String.data "<U+0007>") ≠ charsToBytes (String.data "<07>") := by
  decide

/-- Claim C8 (amended): the escaper passes printable ASCII (and, by the
Unicode tables, printable or formatting code points) through unchanged;
every legal UTF-8 sequence decoding to an unprintable non-formatting code
point becomes a code-point marker (hexadecimal, at least four digits, angle
brackets, U+ prefix); every byte that is not part of any legal UTF-8 sequence
becomes a two-digit byte marker; in particular bell 0x07 yields the code-point
marker U+0007 and the ill-formed byte 0x80 yields the byte marker 80. -/
theorem escape_characterization :
    (∀ (uP uF : Nat → Bool) (l : List Nat),
      (∀ b ∈ l, isPrintableAscii b = true) →
      EscapeStringForDiagnostic uP uF l = l) ∧
    (∀ b < 0x80, isPrintableAscii b = false → isWhitespaceAscii b = false →
      EscapeStringForDiagnostic uniPrintableModel uniFormattingModel [b] =
        charsToBytes (Char.ofNat 60 :: Char.ofNat 85 :: Char.ofNat 43 ::
          hexPad 4 b ++ [Char.ofNat 62])) ∧
    (∀ b < 0xC2, 0x80 ≤ b →
      EscapeStringForDiagnostic uniPrintableModel uniFormattingModel [b] =
        charsToBytes (Char.ofNat 60 :: hexPad 2 b ++ [Char.ofNat 62])) ∧
    EscapeStringForDiagnostic uniPrintableModel uniFormattingModel [0x07] =
      charsToBytes (String.data "<U+0007>") ∧
    EscapeStringForDiagnostic uniPrintableModel uniFormattingModel [0x80] =
      charsToBytes (String.data "<80>") := by
  refine ⟨?_, by decide, by decide, by decide, by decide⟩
  have key : ∀ (uP uF : Nat → Bool) (fuel : Nat) (l : List Nat),
      l.length ≤ fuel → (∀ b ∈ l, isPrintableAscii b = true) →
      escapeGo uP uF fuel l = l := by
    intro uP uF fuel
    induction fuel with
    | zero =>
      intro l hlen _
      cases l with
      | nil => rfl
      | cons b rest => simp at hlen
    | succ f ih =>
      intro l hlen hall
      cases l with
      | nil => rfl
      | cons b rest =>
        have hb : isPrintableAscii b = true := hall b (List.mem_cons_self _ _)
        have hrest : rest.length ≤ f := by
          simp only [List.length_cons] at hlen
          omega
        simp [escapeGo, hb,
          ih rest hrest (fun x hx => hall x (List.mem_cons_of_mem _ hx))]
  intro uP uF l hall
  exact key uP uF l.length l (le_refl _) hall

/-- Witness for C8 (amended): a fully printable byte string passes through
unchanged. -/
theorem escape_characterization_witness :
    EscapeStringForDiagnostic uniPrintableModel uniFormattingModel
      [0x41, 0x42] = [0x41, 0x42] :=
  escape_characterization.1 uniPrintableModel uniFormattingModel [0x41, 0x42]
    (by decide)

/-- Claim C9: the plural specifier with clauses condition one maps to one and
empty condition maps to many yields many, one, many on the arguments 0, 1, 2;
clauses are evaluated in order with the first matching condition selecting the
form, and the empty condition always matches. -/
theorem plural_modifier_examples :
    FormatDiagnostic [Arg.sint 0] (String.data "%plural{1:one|:many}0") =
      String.data "many" ∧
    FormatDiagnostic [Arg.sint 1] (String.data "%plural{1:one|:many}0") =
      String.data "one" ∧
    FormatDiagnostic [Arg.sint 2] (String.data "%plural{1:one|:many}0") =
      String.data "many" ∧
    ∀ v : Nat, evalPluralExpr v [] = true := by
  refine ⟨by decide, by decide, by decide, fun v => rfl⟩

/-- Claim C10: a C-string argument that is a null pointer renders as the text
(null), as does a null identifier argument, instead of dereferencing the
pointer or failing; this holds both at the per-argument rendering step and
through full template formatting. -/
theorem null_pointer_arguments :
    diagArgStringRef (Arg.cStr none) = "(null)" ∧
    renderIdentifierArg none = String.data "(null)" ∧
    FormatDiagnostic [Arg.cStr none] (String.data "value %0 used") =
      String.data "value (null) used" ∧
    FormatDiagnostic [Arg.identifierInfo none] (String.data "%0") =
      String.data "(null)" := by
  refine ⟨rfl, rfl, by decide, by decide⟩

end ClangDiag
